import Mathlib

/-!
Verification of the classification and validation engine of superphot
(`superphot/classify.py`) against its specification.

The tables, columns and numeric helpers of the Python source are embedded
shallowly:

* feature vectors and probability vectors are lists of rationals (`Vec`);
* a table row's tuple of non-probability metadata values (the `meta_columns`
  of `superphot.util`, e.g. filename, type, redshift) is a list of strings
  (`Meta`); a masked (missing) label is modelled as a distinguished sentinel
  string, which is exactly the value `Table.filled()` substitutes and which
  survives grouping unchanged;
* numpy / astropy sort string data by code points; `strLe` and `metaLe` below
  are that order, made kernel-computable by comparing the lists of character
  code points;
* the draw from `numpy.random.multivariate_normal` is an external random
  source; the embedding takes it as an explicit function argument `mvnormal`
  of the seed, mean, covariance and sample count.
-/

namespace Superphot

abbrev Vec := List ℚ

abbrev Meta := List String

/-- Code-point key of a string: the order numpy and astropy use when sorting
string columns compares strings by their character code points. -/
def strKey (s : String) : List Nat :=
  s.data.map Char.toNat

/-- Lexicographic code-point order on strings (the sort order of `np.unique`
and of `sorted` on the label strings used here). -/
def strLe (a b : String) : Prop :=
  strKey a ≤ strKey b

instance : DecidableRel strLe :=
  fun a b => inferInstanceAs (Decidable (strKey a ≤ strKey b))

/-- Key of a metadata tuple, for the row order produced by astropy
`Table.group_by`, which sorts the table by the group-key columns. -/
def metaKey (m : Meta) : List (List Nat) :=
  m.map strKey

/-- Lexicographic order on metadata tuples (the astropy sort order of the
group keys). -/
def metaLe (a b : Meta) : Prop :=
  metaKey a ≤ metaKey b

instance : DecidableRel metaLe :=
  fun a b => inferInstanceAs (Decidable (metaKey a ≤ metaKey b))

theorem strKey_injective : Function.Injective strKey := by
  intro a b h
  have hd : a.data = b.data := by
    have : Function.Injective Char.toNat := by
      intro c d hcd
      exact Char.eq_of_val_eq (UInt32.ext hcd)
    exact List.map_injective_iff.mpr this h
  cases a; cases b; exact congrArg String.mk hd

theorem metaKey_injective : Function.Injective metaKey :=
  List.map_injective_iff.mpr strKey_injective

instance : IsTotal Meta metaLe :=
  ⟨fun a b => le_total (metaKey a) (metaKey b)⟩

instance : IsTrans Meta metaLe :=
  ⟨fun _ _ _ h h2 => le_trans h h2⟩

instance : IsAntisymm Meta metaLe :=
  ⟨fun _ _ h h2 => metaKey_injective (le_antisymm h h2)⟩

instance : IsTotal String strLe :=
  ⟨fun a b => le_total (strKey a) (strKey b)⟩

instance : IsTrans String strLe :=
  ⟨fun _ _ _ h h2 => le_trans h h2⟩

/-- `mean_axis0` (classify.py): the numpy mean of a stack of equal-length
vectors along axis 0, i.e. the componentwise mean. -/
def mean_axis0 (vs : List Vec) : Vec :=
  match vs with
  | [] => []
  | v :: _ =>
      (List.range v.length).map
        (fun i => ((vs.map (fun w => w.getD i 0)).sum) / (vs.length : ℚ))

/-- The distinct metadata tuples of a table in ascending order: the group keys
of astropy `group_by` over all metadata columns (`group_by` sorts the table by
the keys and emits one key per group).  `List.dedup` keeps one copy of each
distinct tuple; sorting it gives the ascending list of distinct keys. -/
def groupKeys (ms : List Meta) : List Meta :=
  List.insertionSort metaLe ms.dedup

/-- `aggregate_probabilities` (classify.py).  The code keeps only the
metadata columns and the probability column, groups by all metadata columns
(astropy `group_by`, which sorts the table by the group keys), and aggregates
each group's probability vectors with `mean_axis0`; the group keys, including
the label column with its sentinel for masked values, pass through unchanged.
A row of the embedded table is the pair of its metadata tuple and its
probability vector. -/
def aggregate_probabilities (table : List (Meta × Vec)) : List (Meta × Vec) :=
  (groupKeys (table.map Prod.fst)).map
    (fun m => (m, mean_axis0 ((table.filter (fun r => decide (r.1 = m))).map Prod.snd)))

theorem aggregate_map_fst (table : List (Meta × Vec)) :
    (aggregate_probabilities table).map Prod.fst = groupKeys (table.map Prod.fst) := by
  unfold aggregate_probabilities
  rw [List.map_map]
  have h : ∀ m ∈ groupKeys (table.map Prod.fst),
      (Prod.fst ∘ fun m => (m, mean_axis0 ((table.filter (fun r => decide (r.1 = m))).map Prod.snd))) m
        = id m := fun _ _ => rfl
  rw [List.map_congr_left h, List.map_id]

theorem groupKeys_length (ms : List Meta) :
    (groupKeys ms).length = ms.dedup.length := by
  unfold groupKeys
  exact List.length_insertionSort _ _

theorem mem_groupKeys {ms : List Meta} {m : Meta} :
    m ∈ groupKeys ms ↔ m ∈ ms := by
  unfold groupKeys
  rw [List.mem_insertionSort, List.mem_dedup]

theorem mean_axis0_singleton (v : Vec) : mean_axis0 [v] = v := by
  unfold mean_axis0
  apply List.ext_getElem
  · simp
  · intro i h1 h2
    simp only [List.getElem_map, List.getElem_range, List.map_cons, List.map_nil,
      List.sum_cons, List.sum_nil, List.length_cons, List.length_nil]
    rw [List.getD_eq_getElem v 0 (by simpa using h2)]
    push_cast
    ring

theorem groupKeys_eq_self {ms : List Meta} (h1 : ms.Nodup)
    (h2 : List.Sorted metaLe ms) : groupKeys ms = ms := by
  unfold groupKeys
  rw [List.dedup_eq_self.mpr h1]
  exact h2.insertionSort_eq

theorem map_row_of_nodup :
    ∀ (t : List (Meta × Vec)), (t.map Prod.fst).Nodup →
      (t.map Prod.fst).map
        (fun m => (m, mean_axis0 ((t.filter (fun r => decide (r.1 = m))).map Prod.snd))) = t := by
  intro t
  induction t with
  | nil => intro _; rfl
  | cons r rs ih =>
      intro hnd
      have hnd' : (rs.map Prod.fst).Nodup := (List.nodup_cons.mp hnd).2
      have hniel : r.1 ∉ rs.map Prod.fst := (List.nodup_cons.mp hnd).1
      simp only [List.map_cons]
      refine congrArg₂ List.cons ?_ ?_
      · have hfil : (r :: rs).filter (fun s => decide (s.1 = r.1)) = [r] := by
          rw [List.filter_cons_of_pos (by simp)]
          have hnil : rs.filter (fun s => decide (s.1 = r.1)) = [] := by
            refine List.filter_eq_nil_iff.mpr ?_
            intro s hs
            simp only [decide_eq_true_eq]
            intro hc
            exact hniel (hc ▸ List.mem_map_of_mem Prod.fst hs)
          rw [hnil]
        rw [hfil]
        simp only [List.map_cons, List.map_nil]
        rw [mean_axis0_singleton]
      · have hstep : (rs.map Prod.fst).map
            (fun m => (m, mean_axis0 (((r :: rs).filter (fun s => decide (s.1 = m))).map Prod.snd)))
            = (rs.map Prod.fst).map
            (fun m => (m, mean_axis0 ((rs.filter (fun s => decide (s.1 = m))).map Prod.snd))) := by
          apply List.map_congr_left
          intro m hm
          have hne : ¬ (r.1 = m) := fun hc => hniel (hc ▸ hm)
          rw [List.filter_cons_of_neg (by simpa using hne)]
        rw [hstep]
        exact ih hnd'

theorem aggregate_eq_self {t : List (Meta × Vec)} (h1 : (t.map Prod.fst).Nodup)
    (h2 : List.Sorted metaLe (t.map Prod.fst)) :
    aggregate_probabilities t = t := by
  unfold aggregate_probabilities
  rw [show groupKeys (t.map Prod.fst) = t.map Prod.fst from groupKeys_eq_self h1 h2]
  exact map_row_of_nodup t h1

theorem aggregate_length_dedup (t : List (Meta × Vec)) :
    (aggregate_probabilities t).length = (t.map Prod.fst).dedup.length := by
  rw [← groupKeys_length, ← aggregate_map_fst t, List.length_map]

/-- C5: `aggregate_probabilities` returns exactly one row per distinct tuple of
non-probability metadata values (the group keys of `group_by`), with the
group's metadata — its label column included, the masked-value sentinel passing
through unchanged — preserved, and the probability vector replaced by the
elementwise mean of the group's probability vectors; the output row count is at
most the input row count, with equality iff no two input rows share identical
metadata. -/
theorem C5_aggregate_probabilities_grouping (t : List (Meta × Vec)) :
    (aggregate_probabilities t).map Prod.fst = groupKeys (t.map Prod.fst)
    ∧ (∀ m ∈ t.map Prod.fst,
        (m, mean_axis0 ((t.filter (fun r => decide (r.1 = m))).map Prod.snd))
          ∈ aggregate_probabilities t)
    ∧ (aggregate_probabilities t).length ≤ t.length
    ∧ ((aggregate_probabilities t).length = t.length ↔ (t.map Prod.fst).Nodup) := by
  refine ⟨aggregate_map_fst t, ?_, ?_, ?_⟩
  · intro m hm
    have hk : m ∈ groupKeys (t.map Prod.fst) := mem_groupKeys.mpr hm
    exact List.mem_map_of_mem _ hk
  · rw [aggregate_length_dedup]
    calc (t.map Prod.fst).dedup.length ≤ (t.map Prod.fst).length :=
          (List.dedup_sublist _).length_le
      _ = t.length := List.length_map _ _
  · rw [aggregate_length_dedup]
    constructor
    · intro hl
      have hself : (t.map Prod.fst).dedup = t.map Prod.fst := by
        apply (List.dedup_sublist _).eq_of_length
        rw [hl, List.length_map]
      rw [← hself]
      exact List.nodup_dedup _
    · intro hnd
      rw [List.dedup_eq_self.mpr hnd, List.length_map]

/-- Concrete table for the C5 witness: two model draws of one supernova
(identical metadata), whose probabilities must be averaged into one row. -/
def aggT5 : List (Meta × Vec) :=
  [(["sn1", "SNIa"], [1, 0]), (["sn1", "SNIa"], [0, 1])]

/-- Witness for C5 at a concrete table. -/
theorem C5_aggregate_probabilities_grouping_witness :
    (["sn1", "SNIa"],
        mean_axis0 ((aggT5.filter (fun r => decide (r.1 = ["sn1", "SNIa"]))).map Prod.snd))
      ∈ aggregate_probabilities aggT5
    ∧ (aggregate_probabilities aggT5).length ≤ aggT5.length :=
  ⟨(C5_aggregate_probabilities_grouping aggT5).2.1 ["sn1", "SNIa"] (by decide),
   (C5_aggregate_probabilities_grouping aggT5).2.2.1⟩

/-- Already-aggregated table (one row per distinct metadata tuple) whose rows
are not in the sorted key order astropy `group_by` produces. -/
def aggC6 : List (Meta × Vec) :=
  [(["b"], [1]), (["a"], [2])]

/-- C6 counterexample: aggregating an already-aggregated table does not in
general return the same table — `group_by` sorts the rows by the metadata
keys, so this two-row table comes back with its rows swapped. -/
theorem C6_counterexample :
    (aggC6.map Prod.fst).Nodup ∧ aggregate_probabilities aggC6 ≠ aggC6 := by
  refine ⟨by decide, ?_⟩
  intro h
  have h1 := congrArg (List.map Prod.fst) h
  rw [aggregate_map_fst] at h1
  revert h1
  decide

/-- C6 (amended): aggregation is idempotent up to the row sort performed by
`group_by`: a table with one row per distinct metadata tuple is returned
unchanged provided its rows are already in ascending metadata-key order (the
order aggregation itself produces), and aggregating the output of
`aggregate_probabilities` always returns that output unchanged. -/
theorem C6_aggregate_idempotent_sorted {t : List (Meta × Vec)}
    (h1 : (t.map Prod.fst).Nodup) (h2 : List.Sorted metaLe (t.map Prod.fst)) :
    aggregate_probabilities t = t
    ∧ aggregate_probabilities (aggregate_probabilities t) = aggregate_probabilities t := by
  have h := aggregate_eq_self h1 h2
  exact ⟨h, by rw [h]; exact h⟩

/-- Witness for the amended C6 at a concrete sorted, already-aggregated
table. -/
theorem C6_aggregate_idempotent_sorted_witness :
    aggregate_probabilities [((["a", "SNIa"] : Meta), ([1, 0] : Vec)), (["b", "SNII"], [0, 1])]
      = [(["a", "SNIa"], [1, 0]), (["b", "SNII"], [0, 1])] :=
  (C6_aggregate_idempotent_sorted (by decide) (by decide)).1

/-! ### The `MultivariateGaussian` over-sampler -/

/-- Errors the Python code can raise in the parts that are modelled. -/
inductive PyErr where
  | typeError (msg : String)
  | attributeError (msg : String)
  | exception (msg : String)
deriving DecidableEq

/-- Assignment `d[k] = v` on a Python dict modelled as an association list:
overwrite in place if the key exists, else append. -/
def assocSet {α : Type} (l : List (String × α)) (k : String) (v : α) :
    List (String × α) :=
  if l.any (fun p => p.1 == k) then
    l.map (fun p => if p.1 == k then (k, v) else p)
  else l ++ [(k, v)]

/-- Lookup `d[k]` with a default. -/
def assocGetD {α : Type} (l : List (String × α)) (k : String) (d : α) : α :=
  match l.find? (fun p => p.1 == k) with
  | some p => p.2
  | none => d

theorem assocSet_ne_nil {α : Type} (l : List (String × α)) (k : String) (v : α) :
    assocSet l k v ≠ [] := by
  unfold assocSet
  split
  · rename_i h
    cases l with
    | nil => simp at h
    | cons a t => simp
  · simp

/-- The distinct elements of a list in order of first occurrence — the key
order of `collections.Counter`, hence of imblearn's per-class target dict. -/
def distinctFirst : List String → List String
  | [] => []
  | a :: t => a :: (distinctFirst t).filter (fun b => decide (b ≠ a))

theorem mem_distinctFirst : ∀ {l : List String} {a : String},
    a ∈ distinctFirst l ↔ a ∈ l := by
  intro l
  induction l with
  | nil => intro a; simp [distinctFirst]
  | cons b t ih =>
      intro a
      simp only [distinctFirst, List.mem_cons, List.mem_filter, decide_eq_true_eq]
      constructor
      · rintro (h | ⟨h, _⟩)
        · exact Or.inl h
        · exact Or.inr (ih.mp h)
      · rintro (h | h)
        · exact Or.inl h
        · by_cases hab : a = b
          · exact Or.inl hab
          · exact Or.inr ⟨ih.mpr h, hab⟩

theorem nodup_distinctFirst : ∀ (l : List String), (distinctFirst l).Nodup := by
  intro l
  induction l with
  | nil => exact List.nodup_nil
  | cons b t ih =>
      rw [distinctFirst, List.nodup_cons]
      constructor
      · intro hmem
        have := (List.mem_filter.mp hmem).2
        simp at this
      · exact List.Nodup.filter _ ih

theorem distinctFirst_ne_nil : ∀ {l : List String}, l ≠ [] → distinctFirst l ≠ [] := by
  intro l h
  cases l with
  | nil => exact absurd rfl h
  | cons a t => simp [distinctFirst]

/-- `X[y == c]`: the feature rows of X whose label is `c`. -/
def classRows (X : List Vec) (y : List String) (c : String) : List Vec :=
  ((X.zip y).filter (fun p => decide (p.2 = c))).map Prod.fst

/-- numpy sample covariance of the rows of X (`np.cov(X, rowvar=False)`,
`ddof = 1`).  For a single row, numpy's 0/0 warning-nan is represented by the
rational 0 (a regime no claim touches). -/
def np_cov (rows : List Vec) : List Vec :=
  let d := (rows.headD []).length
  let μ := mean_axis0 rows
  (List.range d).map (fun i => (List.range d).map (fun j =>
    ((rows.map (fun r => (r.getD i 0 - μ.getD i 0) * (r.getD j 0 - μ.getD j 0))).sum)
      / ((rows.length : ℚ) - 1)))

/-- imblearn's `check_sampling_strategy` for an over-sampler with
`sampling_strategy='all'` (the only strategy this code ever passes to the
base class): each class present in `y`, in `Counter` (first-occurrence)
order, mapped to `n_majority - n_class`. -/
def samplingStrategyAll (y : List String) : List (String × Int) :=
  let classes := distinctFirst y
  let mx := (classes.map (fun c => y.count c)).foldl max 0
  classes.map (fun c => (c, (mx : Int) - (y.count c : Int)))

/-- `sklearn.utils.check_random_state`: an abstract seedable random source,
modelled as the seed itself (`None` becomes the global source, seed 0 here). -/
def check_random_state (seed : Option Nat) : Nat :=
  seed.getD 0

/-- The constructor argument `sampling_strategy` of `MultivariateGaussian`:
the default `'all'` or an int (the per-class target count). -/
inductive SStrategy where
  | all
  | int (k : Int)

/-- The attributes of a `MultivariateGaussian` instance.  `rs_` is `none`
while the Python attribute does not exist (it is only assigned inside the
synthetic-sampling branch of `_fit_resample`); `sampling_strategy_` is set by
`self.fit`. -/
structure MVGState where
  random_state : Option Nat
  samples_per_class : Option Int
  mean_ : List (String × Vec)
  cov_ : List (String × List Vec)
  sampling_strategy_ : List (String × Int)
  rs_ : Option Nat

namespace MultivariateGaussian

/-- `MultivariateGaussian.__init__`: an int `sampling_strategy` is stored as
`samples_per_class` and replaced by `'all'` for the base class; the dicts
`mean_` and `cov_` start empty and `rs_` does not exist yet. -/
def init (sampling_strategy : SStrategy) (random_state : Option Nat) : MVGState :=
  { random_state := random_state
    samples_per_class :=
      match sampling_strategy with
      | .int k => some k
      | .all => none
    mean_ := []
    cov_ := []
    sampling_strategy_ := []
    rs_ := none }

variable (mvnormal : Nat → Vec → List Vec → Nat → List Vec)

/-- The loop of `_fit_resample` over `self.sampling_strategy_.items()`.  Each
iteration stores the class mean and covariance, computes `n_samples`
(overridden to `samples_per_class - |X_class|` when an int strategy was
given), skips if `n_samples <= 0`, and otherwise recreates `rs_` from the
seed and draws `n_samples` rows from the fitted Gaussian, to be stacked onto
the resampled data.  Returns the final state and the stacked synthetic rows
and labels. -/
def fit_loop (spc : Option Int) (seed : Option Nat) (X : List Vec) (y : List String) :
    List (String × Int) → MVGState → MVGState × List Vec × List String
  | [], st => (st, [], [])
  | (c, ns) :: rest, st =>
      let X_class := classRows X y c
      let mean_c := mean_axis0 X_class
      let cov_c := np_cov X_class
      let st1 := { st with
        mean_ := assocSet st.mean_ c mean_c
        cov_ := assocSet st.cov_ c cov_c }
      let n_samples : Int :=
        match spc with
        | some k => k - (X_class.length : Int)
        | none => ns
      if n_samples ≤ 0 then fit_loop spc seed X y rest st1
      else
        let st2 := { st1 with rs_ := some (check_random_state seed) }
        let X_new := mvnormal (check_random_state seed) mean_c cov_c n_samples.toNat
        let out := fit_loop spc seed X y rest st2
        (out.1, X_new ++ out.2.1, List.replicate n_samples.toNat c ++ out.2.2)

/-- `MultivariateGaussian._fit_resample`: `self.fit` computes
`sampling_strategy_`, then the loop appends synthetic rows per class to a
copy of the input. -/
def fit_resample (st : MVGState) (X : List Vec) (y : List String) :
    MVGState × List Vec × List String :=
  let strat := samplingStrategyAll y
  let st0 := { st with sampling_strategy_ := strat }
  let out := fit_loop mvnormal st.samples_per_class st.random_state X y strat st0
  (out.1, X ++ out.2.1, y ++ out.2.2)

/-- `MultivariateGaussian.more_samples`: raise if `mean_` or `cov_` is empty;
otherwise draw `n_samples` rows per fitted class (sorted class order) from
the stored distributions using `rs_` — which raises an `AttributeError` when
`rs_` was never assigned. -/
def more_samples (st : MVGState) (n_samples : Nat) :
    Except PyErr (List Vec × List String) :=
  if st.mean_ = [] ∨ st.cov_ = [] then
    .error (.exception "Mean and covariance not set. You must first run fit_resample(X, y).")
  else
    match st.rs_ with
    | none => .error (.attributeError "MultivariateGaussian object has no attribute rs_")
    | some rs =>
        let classes := List.insertionSort strLe (st.sampling_strategy_.map Prod.fst)
        .ok (classes.flatMap (fun c => mvnormal rs (assocGetD st.mean_ c []) (assocGetD st.cov_ c []) n_samples),
             classes.flatMap (fun c => List.replicate n_samples c))

/-- The `n_samples` value of one iteration of the `_fit_resample` loop:
`samples_per_class - |X_class|` when an int strategy was given, else the
per-class target stored in `sampling_strategy_`. -/
def loopN (spc : Option Int) (X : List Vec) (y : List String) (p : String × Int) : Int :=
  match spc with
  | some k => k - ((classRows X y p.1).length : Int)
  | none => p.2

theorem fit_loop_nil (spc : Option Int) (seed : Option Nat) (X : List Vec)
    (y : List String) (st : MVGState) :
    fit_loop mvnormal spc seed X y [] st = (st, [], []) := rfl

theorem fit_loop_cons (spc : Option Int) (seed : Option Nat) (X : List Vec)
    (y : List String) (c : String) (ns : Int) (rest : List (String × Int)) (st : MVGState) :
    fit_loop mvnormal spc seed X y ((c, ns) :: rest) st =
      (if loopN spc X y (c, ns) ≤ 0 then
        fit_loop mvnormal spc seed X y rest
          { st with
            mean_ := assocSet st.mean_ c (mean_axis0 (classRows X y c))
            cov_ := assocSet st.cov_ c (np_cov (classRows X y c)) }
      else
        ((fit_loop mvnormal spc seed X y rest
            { st with
              mean_ := assocSet st.mean_ c (mean_axis0 (classRows X y c))
              cov_ := assocSet st.cov_ c (np_cov (classRows X y c))
              rs_ := some (check_random_state seed) }).1,
         mvnormal (check_random_state seed) (mean_axis0 (classRows X y c))
            (np_cov (classRows X y c)) (loopN spc X y (c, ns)).toNat ++
           (fit_loop mvnormal spc seed X y rest
            { st with
              mean_ := assocSet st.mean_ c (mean_axis0 (classRows X y c))
              cov_ := assocSet st.cov_ c (np_cov (classRows X y c))
              rs_ := some (check_random_state seed) }).2.1,
         List.replicate (loopN spc X y (c, ns)).toNat c ++
           (fit_loop mvnormal spc seed X y rest
            { st with
              mean_ := assocSet st.mean_ c (mean_axis0 (classRows X y c))
              cov_ := assocSet st.cov_ c (np_cov (classRows X y c))
              rs_ := some (check_random_state seed) }).2.2)) := rfl

theorem fit_loop_snd (spc : Option Int) (seed : Option Nat) (X : List Vec) (y : List String) :
    ∀ (strat : List (String × Int)) (st : MVGState),
      (fit_loop mvnormal spc seed X y strat st).2 =
        (strat.flatMap (fun p => if loopN spc X y p ≤ 0 then [] else
            mvnormal (check_random_state seed) (mean_axis0 (classRows X y p.1))
              (np_cov (classRows X y p.1)) (loopN spc X y p).toNat),
         strat.flatMap (fun p => if loopN spc X y p ≤ 0 then [] else
            List.replicate (loopN spc X y p).toNat p.1)) := by
  intro strat
  induction strat with
  | nil => intro st; rfl
  | cons p rest ih =>
      intro st
      obtain ⟨c, ns⟩ := p
      rw [fit_loop_cons]
      by_cases h : loopN spc X y (c, ns) ≤ 0
      · rw [if_pos h, ih]
        simp only [List.flatMap_cons, if_pos h, List.nil_append]
      · rw [if_neg h]
        simp only [ih, List.flatMap_cons, if_neg h]

theorem fit_loop_rs (spc : Option Int) (seed : Option Nat) (X : List Vec) (y : List String) :
    ∀ (strat : List (String × Int)) (st : MVGState),
      (fit_loop mvnormal spc seed X y strat st).1.rs_ =
        if strat.any (fun p => decide (0 < loopN spc X y p)) then some (check_random_state seed)
        else st.rs_ := by
  intro strat
  induction strat with
  | nil => intro st; simp [fit_loop_nil]
  | cons p rest ih =>
      intro st
      obtain ⟨c, ns⟩ := p
      rw [fit_loop_cons]
      by_cases h : loopN spc X y (c, ns) ≤ 0
      · rw [if_pos h, ih]
        have hfalse : decide (0 < loopN spc X y (c, ns)) = false := by
          simpa using h
        rw [List.any_cons, hfalse, Bool.false_or]
      · rw [if_neg h]
        have htrue : decide (0 < loopN spc X y (c, ns)) = true := by
          simpa using lt_of_not_le h
        simp only [ih, List.any_cons, htrue, Bool.true_or, if_true]
        split
        · rfl
        · rfl

theorem fit_loop_mean_nil_iff (spc : Option Int) (seed : Option Nat) (X : List Vec)
    (y : List String) :
    ∀ (strat : List (String × Int)) (st : MVGState),
      ((fit_loop mvnormal spc seed X y strat st).1.mean_ = [] ↔ (strat = [] ∧ st.mean_ = [])) := by
  intro strat
  induction strat with
  | nil => intro st; simp [fit_loop_nil]
  | cons p rest ih =>
      intro st
      obtain ⟨c, ns⟩ := p
      rw [fit_loop_cons]
      by_cases h : loopN spc X y (c, ns) ≤ 0
      · rw [if_pos h, ih]
        simp [assocSet_ne_nil]
      · rw [if_neg h]
        simp only [ih]
        simp [assocSet_ne_nil]

theorem fit_loop_cov_nil_iff (spc : Option Int) (seed : Option Nat) (X : List Vec)
    (y : List String) :
    ∀ (strat : List (String × Int)) (st : MVGState),
      ((fit_loop mvnormal spc seed X y strat st).1.cov_ = [] ↔ (strat = [] ∧ st.cov_ = [])) := by
  intro strat
  induction strat with
  | nil => intro st; simp [fit_loop_nil]
  | cons p rest ih =>
      intro st
      obtain ⟨c, ns⟩ := p
      rw [fit_loop_cons]
      by_cases h : loopN spc X y (c, ns) ≤ 0
      · rw [if_pos h, ih]
        simp [assocSet_ne_nil]
      · rw [if_neg h]
        simp only [ih]
        simp [assocSet_ne_nil]

end MultivariateGaussian

theorem classRows_append {X X2 : List Vec} {y y2 : List String} (c : String)
    (h : X.length = y.length) :
    classRows (X ++ X2) (y ++ y2) c = classRows X y c ++ classRows X2 y2 c := by
  unfold classRows
  rw [List.zip_append h, List.filter_append, List.map_append]

theorem classRows_replicate_self {Xb : List Vec} {n : Nat} (c : String)
    (h : Xb.length = n) :
    classRows Xb (List.replicate n c) c = Xb := by
  unfold classRows
  have hfil : (Xb.zip (List.replicate n c)).filter (fun p => decide (p.2 = c))
      = Xb.zip (List.replicate n c) := by
    apply List.filter_eq_self.mpr
    intro p hp
    have h2 := (List.of_mem_zip hp).2
    simp only [List.eq_of_mem_replicate h2, decide_eq_true_eq]
  rw [hfil]
  apply List.map_fst_zip
  rw [List.length_replicate, h]

theorem classRows_replicate_ne {Xb : List Vec} {n : Nat} {a c : String} (h : a ≠ c) :
    classRows Xb (List.replicate n a) c = [] := by
  unfold classRows
  have hfil : (Xb.zip (List.replicate n a)).filter (fun p => decide (p.2 = c)) = [] := by
    apply List.filter_eq_nil_iff.mpr
    intro p hp
    have h2 := (List.of_mem_zip hp).2
    simp only [decide_eq_true_eq]
    rw [List.eq_of_mem_replicate h2]
    exact h
  rw [hfil, List.map_nil]

theorem classRows_length : ∀ {X : List Vec} {y : List String}, X.length = y.length →
    ∀ (c : String), (classRows X y c).length = y.count c := by
  intro X
  induction X with
  | nil =>
      intro y h c
      cases y with
      | nil => rfl
      | cons b t => simp at h
  | cons x xs ih =>
      intro y h c
      cases y with
      | nil => simp at h
      | cons b t =>
          have ht : xs.length = t.length := by simpa using h
          unfold classRows
          rw [List.zip_cons_cons, List.filter_cons]
          have hcnt := ih ht c
          unfold classRows at hcnt
          by_cases hbc : b = c
          · rw [if_pos (by simpa using hbc)]
            simp only [List.map_cons, List.length_cons]
            rw [hcnt, List.count_cons]
            simp [hbc]
          · rw [if_neg (by simpa using hbc)]
            rw [hcnt, List.count_cons]
            simp [hbc]

theorem count_flatMap_blocks (g : String → List String)
    (hg : ∀ a c, c ≠ a → (g a).count c = 0) :
    ∀ (cs : List String), cs.Nodup → ∀ (c : String),
      (cs.flatMap g).count c = if c ∈ cs then (g c).count c else 0 := by
  intro cs
  induction cs with
  | nil => intro _ c; simp
  | cons a t ih =>
      intro hnd c
      rw [List.flatMap_cons, List.count_append]
      have hnd' := (List.nodup_cons.mp hnd).2
      have hna := (List.nodup_cons.mp hnd).1
      by_cases hca : c = a
      · subst hca
        rw [ih hnd' c, if_neg hna, if_pos (List.mem_cons_self _ _), Nat.add_zero]
      · rw [hg a c hca, ih hnd' c, Nat.zero_add]
        congr 1
        simp [List.mem_cons, hca]

theorem classRows_flatMap (Xf : String → List Vec) (nf : String → Nat)
    (hlen : ∀ a, (Xf a).length = nf a) :
    ∀ (cs : List String), cs.Nodup → ∀ (c : String),
      classRows (cs.flatMap Xf) (cs.flatMap (fun a => List.replicate (nf a) a)) c
        = if c ∈ cs then Xf c else [] := by
  intro cs
  induction cs with
  | nil => intro _ c; simp [classRows]
  | cons a t ih =>
      intro hnd c
      rw [List.flatMap_cons, List.flatMap_cons]
      rw [classRows_append c (by rw [hlen a, List.length_replicate])]
      have hnd' := (List.nodup_cons.mp hnd).2
      have hna := (List.nodup_cons.mp hnd).1
      by_cases hca : c = a
      · subst hca
        rw [classRows_replicate_self c (hlen c), ih hnd' c, if_neg hna,
          if_pos (List.mem_cons_self _ _), List.append_nil]
      · rw [classRows_replicate_ne (fun hc => hca hc.symm), ih hnd' c, List.nil_append]
        congr 1
        simp [List.mem_cons, hca]

namespace MultivariateGaussian

variable (mvnormal : Nat → Vec → List Vec → Nat → List Vec)

theorem flatMap_map_eq {α β γ : Type} (l : List α) (f : α → β) (g : β → List γ)
    (g2 : α → List γ) (h : ∀ a, g (f a) = g2 a) :
    (l.map f).flatMap g = l.flatMap g2 := by
  induction l with
  | nil => rfl
  | cons a t ih => simp only [List.map_cons, List.flatMap_cons, h a, ih]

/-- The synthetic rows generated for class `c` by `_fit_resample` with an int
strategy `k` (empty when the class is already at or above the target). -/
def synthRows (k : Int) (seed : Option Nat) (X : List Vec) (y : List String) (c : String) :
    List Vec :=
  if k - (y.count c : Int) ≤ 0 then [] else
    mvnormal (check_random_state seed) (mean_axis0 (classRows X y c)) (np_cov (classRows X y c))
      (k - (y.count c : Int)).toNat

/-- The number of synthetic rows generated for class `c`. -/
def synthCount (k : Int) (y : List String) (c : String) : Nat :=
  if k - (y.count c : Int) ≤ 0 then 0 else (k - (y.count c : Int)).toNat

theorem fit_resample_int_char (k : Int) (seed : Option Nat) (X : List Vec) (y : List String)
    (hlen : X.length = y.length) :
    (fit_resample mvnormal (init (.int k) seed) X y).2.1
        = X ++ (distinctFirst y).flatMap (synthRows mvnormal k seed X y)
    ∧ (fit_resample mvnormal (init (.int k) seed) X y).2.2
        = y ++ (distinctFirst y).flatMap (fun c => List.replicate (synthCount k y c) c) := by
  have hA : (fit_loop mvnormal (some k) seed X y (samplingStrategyAll y)
      { random_state := seed, samples_per_class := some k, mean_ := [], cov_ := [],
        sampling_strategy_ := samplingStrategyAll y, rs_ := none }).2.1
      = (distinctFirst y).flatMap (synthRows mvnormal k seed X y) := by
    rw [fit_loop_snd]
    show ((distinctFirst y).map (fun c =>
        (c, ((((distinctFirst y).map (fun c => y.count c)).foldl max 0 : Nat) : Int)
          - (y.count c : Int)))).flatMap _ = _
    apply flatMap_map_eq
    intro c
    show (if k - ((classRows X y c).length : Int) ≤ 0 then [] else
        mvnormal (check_random_state seed) (mean_axis0 (classRows X y c)) (np_cov (classRows X y c))
          (k - ((classRows X y c).length : Int)).toNat)
      = synthRows mvnormal k seed X y c
    rw [classRows_length hlen]
    rfl
  have hB : (fit_loop mvnormal (some k) seed X y (samplingStrategyAll y)
      { random_state := seed, samples_per_class := some k, mean_ := [], cov_ := [],
        sampling_strategy_ := samplingStrategyAll y, rs_ := none }).2.2
      = (distinctFirst y).flatMap (fun c => List.replicate (synthCount k y c) c) := by
    rw [fit_loop_snd]
    show ((distinctFirst y).map (fun c =>
        (c, ((((distinctFirst y).map (fun c => y.count c)).foldl max 0 : Nat) : Int)
          - (y.count c : Int)))).flatMap _ = _
    apply flatMap_map_eq
    intro c
    show (if k - ((classRows X y c).length : Int) ≤ 0 then [] else
        List.replicate (k - ((classRows X y c).length : Int)).toNat c)
      = List.replicate (synthCount k y c) c
    rw [classRows_length hlen]
    unfold synthCount
    split
    · rfl
    · rfl
  constructor
  · show X ++ (fit_loop mvnormal (some k) seed X y (samplingStrategyAll y)
        { random_state := seed, samples_per_class := some k, mean_ := [], cov_ := [],
          sampling_strategy_ := samplingStrategyAll y, rs_ := none }).2.1 = _
    rw [hA]
  · show y ++ (fit_loop mvnormal (some k) seed X y (samplingStrategyAll y)
        { random_state := seed, samples_per_class := some k, mean_ := [], cov_ := [],
          sampling_strategy_ := samplingStrategyAll y, rs_ := none }).2.2 = _
    rw [hB]

theorem synthRows_length (k : Int) (seed : Option Nat) (X : List Vec) (y : List String)
    (hmv : ∀ rs μ cv n, (mvnormal rs μ cv n).length = n) (a : String) :
    (synthRows mvnormal k seed X y a).length = synthCount k y a := by
  unfold synthRows synthCount
  split
  · rfl
  · exact hmv _ _ _ _

theorem fit_resample_int_count (k : Int) (seed : Option Nat) (X : List Vec) (y : List String)
    (hlen : X.length = y.length) (c : String) :
    ((fit_resample mvnormal (init (.int k) seed) X y).2.2).count c
      = y.count c + (if c ∈ y then synthCount k y c else 0) := by
  rw [(fit_resample_int_char mvnormal k seed X y hlen).2, List.count_append]
  congr 1
  rw [count_flatMap_blocks (fun a => List.replicate (synthCount k y a) a) ?hg
    (distinctFirst y) (nodup_distinctFirst y) c]
  case hg =>
    intro a c2 hne
    rw [List.count_replicate]
    simp only [ite_eq_right_iff, beq_iff_eq]
    intro hc
    exact absurd hc.symm hne
  rw [List.count_replicate]
  simp only [beq_self_eq_true, if_true]
  congr 1
  simp [mem_distinctFirst]

theorem fit_resample_int_classRows (k : Int) (seed : Option Nat) (X : List Vec)
    (y : List String) (hlen : X.length = y.length)
    (hmv : ∀ rs μ cv n, (mvnormal rs μ cv n).length = n) (c : String) :
    classRows (fit_resample mvnormal (init (.int k) seed) X y).2.1
        (fit_resample mvnormal (init (.int k) seed) X y).2.2 c
      = classRows X y c ++ (if c ∈ y then synthRows mvnormal k seed X y c else []) := by
  rw [(fit_resample_int_char mvnormal k seed X y hlen).1,
    (fit_resample_int_char mvnormal k seed X y hlen).2,
    classRows_append c hlen,
    classRows_flatMap (synthRows mvnormal k seed X y) (synthCount k y)
      (synthRows_length mvnormal k seed X y hmv) (distinctFirst y) (nodup_distinctFirst y) c]
  congr 1
  simp [mem_distinctFirst]

theorem samplingStrategyAll_ne_nil {y : List String} (hy : y ≠ []) :
    samplingStrategyAll y ≠ [] := by
  unfold samplingStrategyAll
  intro h
  exact distinctFirst_ne_nil hy (List.map_eq_nil_iff.mp h)

theorem fit_resample_mean_ne_nil (st : MVGState) (X : List Vec) {y : List String}
    (hy : y ≠ []) : (fit_resample mvnormal st X y).1.mean_ ≠ [] := by
  intro h
  have := (fit_loop_mean_nil_iff mvnormal st.samples_per_class st.random_state X y
    (samplingStrategyAll y) { st with sampling_strategy_ := samplingStrategyAll y }).mp h
  exact samplingStrategyAll_ne_nil hy this.1

theorem fit_resample_cov_ne_nil (st : MVGState) (X : List Vec) {y : List String}
    (hy : y ≠ []) : (fit_resample mvnormal st X y).1.cov_ ≠ [] := by
  intro h
  have := (fit_loop_cov_nil_iff mvnormal st.samples_per_class st.random_state X y
    (samplingStrategyAll y) { st with sampling_strategy_ := samplingStrategyAll y }).mp h
  exact samplingStrategyAll_ne_nil hy this.1

theorem fit_resample_int_rs_none (k : Int) (seed : Option Nat) (X : List Vec)
    (y : List String) (hlen : X.length = y.length)
    (h : ∀ c ∈ y, k ≤ (y.count c : Int)) :
    (fit_resample mvnormal (init (.int k) seed) X y).1.rs_ = none := by
  show (fit_loop mvnormal (some k) seed X y (samplingStrategyAll y)
      { random_state := seed, samples_per_class := some k, mean_ := [], cov_ := [],
        sampling_strategy_ := samplingStrategyAll y, rs_ := none }).1.rs_ = none
  rw [fit_loop_rs]
  have hfalse : (samplingStrategyAll y).any (fun p => decide (0 < loopN (some k) X y p)) = false := by
    rw [List.any_eq_false]
    intro p hp
    unfold samplingStrategyAll at hp
    obtain ⟨c, hc, hpc⟩ := List.mem_map.mp hp
    subst hpc
    have hcy : c ∈ y := mem_distinctFirst.mp hc
    simp only [decide_eq_true_eq]
    show ¬ 0 < k - ((classRows X y c).length : Int)
    rw [classRows_length hlen]
    have := h c hcy
    omega
  rw [hfalse]
  rfl

theorem fit_resample_int_rs_some (k : Int) (seed : Option Nat) (X : List Vec)
    (y : List String) (hlen : X.length = y.length)
    (h : ∃ c ∈ y, (y.count c : Int) < k) :
    (fit_resample mvnormal (init (.int k) seed) X y).1.rs_
      = some (check_random_state seed) := by
  show (fit_loop mvnormal (some k) seed X y (samplingStrategyAll y)
      { random_state := seed, samples_per_class := some k, mean_ := [], cov_ := [],
        sampling_strategy_ := samplingStrategyAll y, rs_ := none }).1.rs_ = _
  rw [fit_loop_rs]
  have htrue : (samplingStrategyAll y).any (fun p => decide (0 < loopN (some k) X y p)) = true := by
    rw [List.any_eq_true]
    obtain ⟨c, hc, hlt⟩ := h
    refine ⟨(c, ((((distinctFirst y).map (fun c => y.count c)).foldl max 0 : Nat) : Int)
      - (y.count c : Int)), ?_, ?_⟩
    · unfold samplingStrategyAll
      exact List.mem_map.mpr ⟨c, mem_distinctFirst.mpr hc, rfl⟩
    · simp only [decide_eq_true_eq]
      show 0 < k - ((classRows X y c).length : Int)
      rw [classRows_length hlen]
      omega
  rw [htrue]
  rfl

theorem more_samples_unfitted (st : MVGState) (n : Nat)
    (h : st.mean_ = [] ∨ st.cov_ = []) :
    more_samples mvnormal st n
      = .error (.exception "Mean and covariance not set. You must first run fit_resample(X, y).") := by
  unfold more_samples
  rw [if_pos h]

theorem more_samples_attr (st : MVGState) (n : Nat)
    (h1 : st.mean_ ≠ []) (h2 : st.cov_ ≠ []) (h3 : st.rs_ = none) :
    more_samples mvnormal st n
      = .error (.attributeError "MultivariateGaussian object has no attribute rs_") := by
  unfold more_samples
  rw [if_neg (by
    intro h
    rcases h with h | h
    · exact h1 h
    · exact h2 h), h3]

theorem more_samples_ok_eq (st : MVGState) (n : Nat) (rs : Nat)
    (h1 : st.mean_ ≠ []) (h2 : st.cov_ ≠ []) (h3 : st.rs_ = some rs) :
    more_samples mvnormal st n
      = .ok ((List.insertionSort strLe (st.sampling_strategy_.map Prod.fst)).flatMap
              (fun c => mvnormal rs (assocGetD st.mean_ c []) (assocGetD st.cov_ c []) n),
             (List.insertionSort strLe (st.sampling_strategy_.map Prod.fst)).flatMap
              (fun c => List.replicate n c)) := by
  unfold more_samples
  rw [if_neg (by
    intro h
    rcases h with h | h
    · exact h1 h
    · exact h2 h), h3]

theorem length_flatMap_const {α β : Type} (cs : List α) (f : α → List β) (n : Nat)
    (h : ∀ c, (f c).length = n) : (cs.flatMap f).length = n * cs.length := by
  induction cs with
  | nil => simp
  | cons a t ih =>
      rw [List.flatMap_cons, List.length_append, h a, ih, List.length_cons]
      ring

theorem count_flatMap_replicate_self (cs : List String) (hnd : cs.Nodup) (n : Nat)
    {c : String} (hc : c ∈ cs) :
    (cs.flatMap (fun c2 => List.replicate n c2)).count c = n := by
  rw [count_flatMap_blocks (fun c2 => List.replicate n c2) ?hg cs hnd c]
  case hg =>
    intro a c2 hne
    rw [List.count_replicate]
    simp only [ite_eq_right_iff, beq_iff_eq]
    intro hcc
    exact absurd hcc.symm hne
  rw [if_pos hc, List.count_replicate]
  simp

/-- C2: `fit_resample` with an int `sampling_strategy` `k` preserves all
original rows as a prefix of the output; every class keeps count at least
`min(original count, k)`; a class whose count is below `k` ends with exactly
`k` rows — its original rows followed by `k - count` rows drawn from that
class's fitted Gaussian (its empirical mean and covariance) and labelled with
that class; a class at or above `k` keeps exactly its original rows, never
trimmed. -/
theorem C2_fit_resample_int_targets (k : Int) (seed : Option Nat) (X : List Vec)
    (y : List String) (hlen : X.length = y.length)
    (hmv : ∀ rs μ cv n, (mvnormal rs μ cv n).length = n) :
    ((fit_resample mvnormal (init (.int k) seed) X y).2.1.take X.length = X
      ∧ (fit_resample mvnormal (init (.int k) seed) X y).2.2.take y.length = y)
    ∧ (∀ c : String, min ((y.count c : Int)) k
        ≤ (((fit_resample mvnormal (init (.int k) seed) X y).2.2.count c : Int)))
    ∧ (∀ c ∈ y, (y.count c : Int) < k →
        (((fit_resample mvnormal (init (.int k) seed) X y).2.2.count c : Int)) = k
        ∧ classRows (fit_resample mvnormal (init (.int k) seed) X y).2.1
            (fit_resample mvnormal (init (.int k) seed) X y).2.2 c
          = classRows X y c ++
            mvnormal (check_random_state seed) (mean_axis0 (classRows X y c))
              (np_cov (classRows X y c)) (k - (y.count c : Int)).toNat)
    ∧ (∀ c : String, k ≤ (y.count c : Int) →
        (fit_resample mvnormal (init (.int k) seed) X y).2.2.count c = y.count c
        ∧ classRows (fit_resample mvnormal (init (.int k) seed) X y).2.1
            (fit_resample mvnormal (init (.int k) seed) X y).2.2 c
          = classRows X y c) := by
  have hchar := fit_resample_int_char mvnormal k seed X y hlen
  refine ⟨⟨?_, ?_⟩, ?_, ?_, ?_⟩
  · rw [hchar.1, List.take_left]
  · rw [hchar.2, List.take_left]
  · intro c
    rw [fit_resample_int_count mvnormal k seed X y hlen c]
    have h1 : min ((y.count c : Int)) k ≤ (y.count c : Int) := min_le_left _ _
    have h2 : (y.count c : Int)
        ≤ ((y.count c + (if c ∈ y then synthCount k y c else 0) : Nat) : Int) := by
      push_cast
      omega
    exact le_trans h1 h2
  · intro c hc hlt
    have hpos : ¬ (k - (y.count c : Int) ≤ 0) := by omega
    have hsc : synthCount k y c = (k - (y.count c : Int)).toNat := by
      unfold synthCount
      rw [if_neg hpos]
    constructor
    · rw [fit_resample_int_count mvnormal k seed X y hlen c, if_pos hc, hsc]
      push_cast
      omega
    · rw [fit_resample_int_classRows mvnormal k seed X y hlen hmv c, if_pos hc]
      unfold synthRows
      rw [if_neg hpos]
  · intro c hk
    have hz : k - (y.count c : Int) ≤ 0 := by omega
    have hsc : synthCount k y c = 0 := by
      unfold synthCount
      rw [if_pos hz]
    constructor
    · rw [fit_resample_int_count mvnormal k seed X y hlen c, hsc]
      simp
    · rw [fit_resample_int_classRows mvnormal k seed X y hlen hmv c]
      unfold synthRows
      rw [if_pos hz]
      simp

/-- Deterministic stand-in for `numpy.random.multivariate_normal` used in the
concrete witnesses: `n` copies of the mean vector. -/
def mvnW : Nat → Vec → List Vec → Nat → List Vec := fun _ μ _ n => List.replicate n μ

theorem mvnW_length : ∀ (rs : Nat) (μ : Vec) (cv : List Vec) (n : Nat),
    (mvnW rs μ cv n).length = n := by
  intro rs μ cv n
  exact List.length_replicate n μ

/-- Witness for C2: classes {A: 2 rows, B: 1 row}, target 2 — class B is
topped up to exactly 2, class A keeps its count. -/
theorem C2_fit_resample_int_targets_witness :
    (((fit_resample mvnW (init (.int 2) none) [[1], [2], [3]] ["A", "A", "B"]).2.2.count "B" : Int)) = 2
    ∧ (fit_resample mvnW (init (.int 2) none) [[1], [2], [3]] ["A", "A", "B"]).2.2.count "A"
        = (["A", "A", "B"] : List String).count "A" :=
  ⟨((C2_fit_resample_int_targets mvnW 2 none [[1], [2], [3]] ["A", "A", "B"]
      (by decide) mvnW_length).2.2.1 "B" (by decide) (by decide)).1,
   ((C2_fit_resample_int_targets mvnW 2 none [[1], [2], [3]] ["A", "A", "B"]
      (by decide) mvnW_length).2.2.2 "A" (by decide)).1⟩

/-- State reached by `fit_resample` with int target 1 on a dataset whose only
class already has 2 ≥ 1 members: the per-class distributions are stored but
`rs_` was never created. -/
def stAllSat : MVGState := (fit_resample mvnW (init (.int 1) none) [[1], [2]] ["A", "A"]).1

/-- C3 counterexample: a state whose per-class distributions are stored (the
unfitted check passes) on which `more_samples` nevertheless raises an
`AttributeError` instead of returning `n × (#classes)` rows, because the
preceding `fit_resample` generated no synthetic sample and so never created
`rs_`. -/
theorem C3_counterexample :
    stAllSat.mean_ ≠ [] ∧ stAllSat.cov_ ≠ []
    ∧ more_samples mvnW stAllSat 3
        = .error (.attributeError "MultivariateGaussian object has no attribute rs_") :=
  ⟨fit_resample_mean_ne_nil mvnW _ _ (by decide),
   fit_resample_cov_ne_nil mvnW _ _ (by decide),
   more_samples_attr mvnW _ 3
    (fit_resample_mean_ne_nil mvnW _ _ (by decide))
    (fit_resample_cov_ne_nil mvnW _ _ (by decide))
    (fit_resample_int_rs_none mvnW 1 none _ _ (by decide) (by decide))⟩

/-- C3 (amended): `more_samples(n)` raises the "unfitted" error exactly when
no per-class distributions are stored; otherwise, provided the random source
`rs_` exists (some class required synthesis during the preceding
`fit_resample`), it returns exactly `n × (#classes seen during fit)` rows —
`n` per fitted class, drawn from the stored per-class (mean, covariance),
labels copying the source classes in sorted order; when `rs_` was never
created it instead fails with an `AttributeError` despite passing the
unfitted check. -/
theorem C3_more_samples_contract (st : MVGState) (n : Nat)
    (hmv : ∀ rs μ cv m, (mvnormal rs μ cv m).length = m) :
    (st.mean_ = [] ∨ st.cov_ = [] →
      more_samples mvnormal st n
        = .error (.exception "Mean and covariance not set. You must first run fit_resample(X, y)."))
    ∧ (st.mean_ ≠ [] → st.cov_ ≠ [] → st.rs_ = none →
      more_samples mvnormal st n
        = .error (.attributeError "MultivariateGaussian object has no attribute rs_"))
    ∧ (∀ rs, st.mean_ ≠ [] → st.cov_ ≠ [] → st.rs_ = some rs →
        more_samples mvnormal st n
          = .ok ((List.insertionSort strLe (st.sampling_strategy_.map Prod.fst)).flatMap
                  (fun c => mvnormal rs (assocGetD st.mean_ c []) (assocGetD st.cov_ c []) n),
                 (List.insertionSort strLe (st.sampling_strategy_.map Prod.fst)).flatMap
                  (fun c => List.replicate n c))
        ∧ ((List.insertionSort strLe (st.sampling_strategy_.map Prod.fst)).flatMap
              (fun c => List.replicate n c)).length = n * st.sampling_strategy_.length
        ∧ ((List.insertionSort strLe (st.sampling_strategy_.map Prod.fst)).flatMap
              (fun c => mvnormal rs (assocGetD st.mean_ c []) (assocGetD st.cov_ c []) n)).length
            = n * st.sampling_strategy_.length
        ∧ ((st.sampling_strategy_.map Prod.fst).Nodup →
            ∀ c ∈ st.sampling_strategy_.map Prod.fst,
              ((List.insertionSort strLe (st.sampling_strategy_.map Prod.fst)).flatMap
                (fun c2 => List.replicate n c2)).count c = n)) := by
  refine ⟨more_samples_unfitted mvnormal st n, more_samples_attr mvnormal st n, ?_⟩
  intro rs h1 h2 h3
  have hslen : (List.insertionSort strLe (st.sampling_strategy_.map Prod.fst)).length
      = st.sampling_strategy_.length := by
    rw [List.length_insertionSort, List.length_map]
  refine ⟨more_samples_ok_eq mvnormal st n rs h1 h2 h3, ?_, ?_, ?_⟩
  · rw [length_flatMap_const _ _ n (fun c => List.length_replicate n c), hslen]
  · rw [length_flatMap_const _ _ n (fun c => hmv rs _ _ n), hslen]
  · intro hnd c hc
    apply count_flatMap_replicate_self
    · exact ((List.perm_insertionSort strLe _).nodup_iff).mpr hnd
    · exact (List.mem_insertionSort strLe).mpr hc

/-- Fitted sampler state for the C3 witness: one class "A" with stored mean
[0] and covariance [[1]], and an existing random source. -/
def stFitted : MVGState :=
  { random_state := none
    samples_per_class := some 3
    mean_ := [("A", [0])]
    cov_ := [("A", [[1]])]
    sampling_strategy_ := [("A", 0)]
    rs_ := some 0 }

/-- Witness for the amended C3 at concrete states: a fresh sampler raises the
unfitted error, and a fitted sampler with a random source returns the
per-class draws with `n × (#classes)` labels. -/
theorem C3_more_samples_contract_witness :
    more_samples mvnW (init .all none) 2
      = .error (.exception "Mean and covariance not set. You must first run fit_resample(X, y).")
    ∧ more_samples mvnW stFitted 2
      = .ok ((List.insertionSort strLe (stFitted.sampling_strategy_.map Prod.fst)).flatMap
              (fun c => mvnW 0 (assocGetD stFitted.mean_ c []) (assocGetD stFitted.cov_ c []) 2),
             (List.insertionSort strLe (stFitted.sampling_strategy_.map Prod.fst)).flatMap
              (fun c => List.replicate 2 c))
    ∧ ((List.insertionSort strLe (stFitted.sampling_strategy_.map Prod.fst)).flatMap
        (fun c => List.replicate 2 c)).length = 2 * stFitted.sampling_strategy_.length :=
  ⟨(C3_more_samples_contract mvnW (init .all none) 2 mvnW_length).1 (by decide),
   ((C3_more_samples_contract mvnW stFitted 2 mvnW_length).2.2 0
      (by decide) (by decide) (by decide)).1,
   ((C3_more_samples_contract mvnW stFitted 2 mvnW_length).2.2 0
      (by decide) (by decide) (by decide)).2.1⟩

/-- C10: after a `fit_resample` on a fresh instance with int target `k`, the
stored-distribution check of `more_samples` passes (mean and covariance dicts
are nonempty), but `rs_` exists iff some class was below target — so
`more_samples` raises an `AttributeError` when every class was already at or
above its target, and succeeds iff the fit generated at least one synthetic
row. -/
theorem C10_rs_only_on_synthesis (k : Int) (seed : Option Nat) (X : List Vec)
    (y : List String) (n : Nat) (hlen : X.length = y.length) (hy : y ≠ []) :
    ((fit_resample mvnormal (init (.int k) seed) X y).1.mean_ ≠ []
      ∧ (fit_resample mvnormal (init (.int k) seed) X y).1.cov_ ≠ [])
    ∧ ((∀ c ∈ y, k ≤ (y.count c : Int)) →
        (fit_resample mvnormal (init (.int k) seed) X y).1.rs_ = none
        ∧ more_samples mvnormal (fit_resample mvnormal (init (.int k) seed) X y).1 n
            = .error (.attributeError "MultivariateGaussian object has no attribute rs_"))
    ∧ ((∃ c ∈ y, (y.count c : Int) < k) →
        (fit_resample mvnormal (init (.int k) seed) X y).1.rs_
          = some (check_random_state seed))
    ∧ ((∃ out, more_samples mvnormal (fit_resample mvnormal (init (.int k) seed) X y).1 n
          = .ok out)
        ↔ (∃ c ∈ y, (y.count c : Int) < k)) := by
  have hmean := fit_resample_mean_ne_nil mvnormal (init (.int k) seed) X hy
  have hcov := fit_resample_cov_ne_nil mvnormal (init (.int k) seed) X hy
  refine ⟨⟨hmean, hcov⟩, ?_, fit_resample_int_rs_some mvnormal k seed X y hlen, ?_⟩
  · intro hall
    have hrs := fit_resample_int_rs_none mvnormal k seed X y hlen hall
    exact ⟨hrs, more_samples_attr mvnormal _ n hmean hcov hrs⟩
  · constructor
    · rintro ⟨out, hout⟩
      by_contra hno
      have hall : ∀ c ∈ y, k ≤ (y.count c : Int) := by
        intro c hc
        by_contra hlt
        exact hno ⟨c, hc, by omega⟩
      rw [more_samples_attr mvnormal _ n hmean hcov
        (fit_resample_int_rs_none mvnormal k seed X y hlen hall)] at hout
      exact Except.noConfusion hout
    · intro hex
      exact ⟨_, more_samples_ok_eq mvnormal _ n (check_random_state seed) hmean hcov
        (fit_resample_int_rs_some mvnormal k seed X y hlen hex)⟩

/-- Witness for C10 at concrete inputs: with target 1 and a class of size 2,
`rs_` stays absent and `more_samples` raises; with target 3 the class needs
synthesis and `rs_` is created. -/
theorem C10_rs_only_on_synthesis_witness :
    (fit_resample mvnW (init (.int 1) none) [[1], [2]] ["A", "A"]).1.rs_ = none
    ∧ more_samples mvnW (fit_resample mvnW (init (.int 1) none) [[1], [2]] ["A", "A"]).1 3
        = .error (.attributeError "MultivariateGaussian object has no attribute rs_")
    ∧ (fit_resample mvnW (init (.int 3) none) [[1], [2]] ["A", "A"]).1.rs_
        = some (check_random_state none) :=
  ⟨((C10_rs_only_on_synthesis mvnW 1 none [[1], [2]] ["A", "A"] 3
      (by decide) (by decide)).2.1 (by decide)).1,
   ((C10_rs_only_on_synthesis mvnW 1 none [[1], [2]] ["A", "A"] 3
      (by decide) (by decide)).2.1 (by decide)).2,
   (C10_rs_only_on_synthesis mvnW 3 none [[1], [2]] ["A", "A"] 3
      (by decide) (by decide)).2.2.1 (by decide)⟩

end MultivariateGaussian


/-! ### `make_confusion_matrix` (classify.py lines 243-292, matrix part) -/

/-- A row of the results table passed to `make_confusion_matrix`: the `type`
column entry with its mask (`none` = masked) and the probability vector. -/
structure ResRow where
  rtype : Option String
  probs : Vec

/-- `np.unique` of a string column: the distinct values in ascending order. -/
def npUniqueStr (l : List String) : List String :=
  List.insertionSort strLe l.dedup

/-- `results = results[~results['type'].mask]` (line 262). -/
def survivors (results : List ResRow) : List ResRow :=
  results.filter (fun r => r.rtype.isSome)

/-- Lines 263-264: the class list defaults to `np.unique(results['type'])` of
the surviving rows. -/
def cmClasses (results : List ResRow) (classes : Option (List String)) : List String :=
  classes.getD (npUniqueStr ((survivors results).filterMap (fun r => r.rtype)))

/-- Accumulator loop of `np.argmax`: first index of the maximum. -/
def argmaxAux : List ℚ → Nat → Nat → ℚ → Nat
  | [], _, best, _ => best
  | x :: xs, i, best, bv =>
      if bv < x then argmaxAux xs (i + 1) i x else argmaxAux xs (i + 1) best bv

/-- `np.argmax` over one probability vector (0 on the empty vector, a case
numpy rejects). -/
def npArgmax : Vec → Nat
  | [] => 0
  | x :: xs => argmaxAux xs 1 0 x

/-- `.max(axis=1)` over one probability vector. -/
def npMaxQ : Vec → ℚ
  | [] => 0
  | x :: xs => xs.foldl max x

/-- Line 266: every surviving true label that is not SNIa becomes CCSN. -/
def binaryTrueTypes (results : List ResRow) : List String :=
  (survivors results).map (fun r => if r.rtype == some "SNIa" then "SNIa" else "CCSN")

/-- Line 267: `results['probabilities'][:, np.where(classes == 'SNIa')[0][0]]`. -/
def sniaColumn (results : List ResRow) (classes : List String) : List ℚ :=
  (survivors results).map (fun r => r.probs.getD (classes.indexOf "SNIa") 0)

/-- Line 269: `np.choose(np.round(SNIa_probs).astype(int), ['CCSN', 'SNIa'])`.
For a probability p in [0, 1], numpy's half-to-even round is 1 exactly when
p > 1/2 (0.5 rounds to 0). -/
def binaryPredTypes (results : List ResRow) (classes : List String) : List String :=
  (sniaColumn results classes).map (fun p => if 1 / 2 < p then "SNIa" else "CCSN")

/-- Line 270: `(SNIa_probs > p_min) | (SNIa_probs < 1 - p_min)`. -/
def binaryInclude (results : List ResRow) (classes : List String) (p_min : ℚ) : List Bool :=
  (sniaColumn results classes).map (fun p => decide (p_min < p ∨ p < 1 - p_min))

/-- Line 272: `classes[np.argmax(results['probabilities'], axis=1)]`. -/
def multiPredTypes (results : List ResRow) (classes : List String) : List String :=
  (survivors results).map (fun r => classes.getD (npArgmax r.probs) "")

/-- Line 273: `results['probabilities'].max(axis=1) > p_min`. -/
def multiInclude (results : List ResRow) (p_min : ℚ) : List Bool :=
  (survivors results).map (fun r => decide (p_min < npMaxQ r.probs))

/-- Boolean-mask selection `arr[include]`. -/
def maskSelect {α : Type} (xs : List α) (inc : List Bool) : List α :=
  ((xs.zip inc).filter (fun p => p.2)).map Prod.fst

/-- One cell of the sklearn confusion matrix: the number of positions with
true label `a` and predicted label `b`. -/
def cmEntry (y_true y_pred : List String) (a b : String) : Nat :=
  ((y_true.zip y_pred).filter (fun p => decide (p.1 = a ∧ p.2 = b))).length

/-- `sklearn.metrics.confusion_matrix(y_true, y_pred)` with no `labels=`
argument: the label list is the sorted distinct values occurring in `y_true`
or `y_pred`, and entry (i, j) counts positions with true label `labels[i]`
and predicted label `labels[j]`. -/
def sklearn_confusion_matrix (y_true y_pred : List String) :
    List String × List (List Nat) :=
  let labels := npUniqueStr (y_true ++ y_pred)
  (labels, labels.map (fun a => labels.map (fun b => cmEntry y_true y_pred a b)))

/-- The (true, predicted) label lists `make_confusion_matrix` tabulates after
mask filtering, prediction and the confidence cut (lines 262-274). -/
def cm_inputs (results : List ResRow) (classes : Option (List String)) (p_min : ℚ)
    (binary : Bool) : List String × List String :=
  let cls := cmClasses results classes
  if binary then
    (maskSelect (binaryTrueTypes results) (binaryInclude results cls p_min),
     maskSelect (binaryPredTypes results cls) (binaryInclude results cls p_min))
  else
    (maskSelect ((survivors results).filterMap (fun r => r.rtype)) (multiInclude results p_min),
     maskSelect (multiPredTypes results cls) (multiInclude results p_min))

/-- `make_confusion_matrix` (matrix part; plotting and summary statistics
omitted): the class list used for the axes, and sklearn's (labels, matrix). -/
def make_confusion_matrix (results : List ResRow) (classes : Option (List String))
    (p_min : ℚ) (binary : Bool) : List String × (List String × List (List Nat)) :=
  ((if binary then ["CCSN", "SNIa"] else cmClasses results classes),
   sklearn_confusion_matrix (cm_inputs results classes p_min binary).1
     (cm_inputs results classes p_min binary).2)

/-- Binary predicted class as the specification words it: the multiclass
argmax relabelled to CCSN when it is not SNIa. -/
def spec_binary_predicted (classes : List String) (probs : Vec) : String :=
  if classes.getD (npArgmax probs) "" = "SNIa" then "SNIa" else "CCSN"

theorem binaryPred_eq_collapsed_argmax (results : List ResRow) (classes : List String) :
    binaryPredTypes results classes
      = (sniaColumn results classes).map
          (fun p => ["CCSN", "SNIa"].getD (npArgmax [1 - p, p]) "") := by
  unfold binaryPredTypes
  apply List.map_congr_left
  intro p hp
  by_cases h : 1 / 2 < p
  · rw [if_pos h]
    have harg : npArgmax [1 - p, p] = 1 := by
      show argmaxAux [p] 1 0 (1 - p) = 1
      rw [argmaxAux, if_pos (by linarith)]
      rfl
    rw [harg]
    rfl
  · rw [if_neg h]
    have harg : npArgmax [1 - p, p] = 0 := by
      show argmaxAux [p] 1 0 (1 - p) = 0
      rw [argmaxAux, if_neg (by
        intro hc
        apply h
        linarith)]
      rfl
    rw [harg]
    rfl

theorem length_eq_of_nodup_mem {l1 l2 : List String} (h1 : l1.Nodup) (h2 : l2.Nodup)
    (h : ∀ a, a ∈ l1 ↔ a ∈ l2) : l1.length = l2.length := by
  rw [← List.toFinset_card_of_nodup h1, ← List.toFinset_card_of_nodup h2]
  congr 1
  ext a
  simp only [List.mem_toFinset]
  exact h a

theorem npUniqueStr_nodup (l : List String) : (npUniqueStr l).Nodup :=
  ((List.perm_insertionSort strLe _).nodup_iff).mpr (List.nodup_dedup l)

theorem mem_npUniqueStr {l : List String} {a : String} : a ∈ npUniqueStr l ↔ a ∈ l := by
  unfold npUniqueStr
  rw [List.mem_insertionSort, List.mem_dedup]

theorem sklearn_cm_square (y_true y_pred : List String) :
    (sklearn_confusion_matrix y_true y_pred).2.length
        = (sklearn_confusion_matrix y_true y_pred).1.length
    ∧ (∀ row ∈ (sklearn_confusion_matrix y_true y_pred).2,
        row.length = (sklearn_confusion_matrix y_true y_pred).1.length) := by
  constructor
  · exact List.length_map _ _
  · intro row hrow
    obtain ⟨a, _, hrow2⟩ := List.mem_map.mp hrow
    rw [← hrow2, List.length_map]
    rfl

theorem sklearn_cm_entry (y_true y_pred : List String) (i j : Nat)
    (hi : i < (npUniqueStr (y_true ++ y_pred)).length)
    (hj : j < (npUniqueStr (y_true ++ y_pred)).length) :
    ((sklearn_confusion_matrix y_true y_pred).2.getD i []).getD j 0
      = cmEntry y_true y_pred ((npUniqueStr (y_true ++ y_pred)).getD i "")
          ((npUniqueStr (y_true ++ y_pred)).getD j "") := by
  have hi2 : i < ((npUniqueStr (y_true ++ y_pred)).map (fun a =>
      (npUniqueStr (y_true ++ y_pred)).map (fun b => cmEntry y_true y_pred a b))).length := by
    rw [List.length_map]
    exact hi
  show (((npUniqueStr (y_true ++ y_pred)).map (fun a =>
      (npUniqueStr (y_true ++ y_pred)).map (fun b => cmEntry y_true y_pred a b))).getD i []).getD j 0 = _
  rw [List.getD_eq_getElem _ _ hi2, List.getElem_map]
  have hj2 : j < ((npUniqueStr (y_true ++ y_pred)).map (fun b =>
      cmEntry y_true y_pred ((npUniqueStr (y_true ++ y_pred))[i]) b)).length := by
    rw [List.length_map]
    exact hj
  rw [List.getD_eq_getElem _ _ hj2, List.getElem_map]
  rw [List.getD_eq_getElem _ _ hi, List.getD_eq_getElem _ _ hj]

/-- C4 (amended): `make_confusion_matrix` excludes exactly the rows whose true
label is masked; multiclass predicted class is the argmax of the probability
vector; binary mode relabels every non-SNIa true class to CCSN and computes
the predicted class as the argmax of the collapsed two-class vector
(1 - p_SNIa, p_SNIa) over (CCSN, SNIa) — equivalently SNIa iff p_SNIa > 1/2,
not by relabelling the multiclass argmax — and the class list becomes exactly
[CCSN, SNIa]. -/
theorem C4_make_confusion_matrix_semantics (results : List ResRow) (classes : List String)
    (p_min : ℚ) :
    (∀ r ∈ survivors results, r.rtype ≠ none)
    ∧ survivors results = results.filter (fun r => r.rtype.isSome)
    ∧ multiPredTypes results classes
        = (survivors results).map (fun r => classes.getD (npArgmax r.probs) "")
    ∧ binaryTrueTypes results
        = (survivors results).map (fun r => if r.rtype == some "SNIa" then "SNIa" else "CCSN")
    ∧ binaryPredTypes results classes
        = (sniaColumn results classes).map
            (fun p => ["CCSN", "SNIa"].getD (npArgmax [1 - p, p]) "")
    ∧ (make_confusion_matrix results (some classes) p_min true).1 = ["CCSN", "SNIa"] := by
  refine ⟨?_, rfl, rfl, rfl, binaryPred_eq_collapsed_argmax results classes, rfl⟩
  intro r hr
  unfold survivors at hr
  have := (List.mem_filter.mp hr).2
  simp only [decide_eq_true_eq] at this
  exact Option.isSome_iff_ne_none.mp this

/-- One labelled row for the C4 counterexample: true type SLSN, probabilities
0.35 / 0.25 / 0.40 over the sorted classes [SLSN, SNII, SNIa]. -/
def resC4 : List ResRow := [⟨some "SLSN", [7/20, 1/4, 2/5]⟩]

def clsC4 : List String := ["SLSN", "SNII", "SNIa"]

/-- Witness for the amended C4 at concrete inputs. -/
theorem C4_make_confusion_matrix_semantics_witness :
    (⟨some "SLSN", [7/20, 1/4, 2/5]⟩ : ResRow).rtype ≠ none
    ∧ (make_confusion_matrix resC4 (some clsC4) 0 true).1 = ["CCSN", "SNIa"] :=
  ⟨(C4_make_confusion_matrix_semantics resC4 clsC4 0).1 ⟨some "SLSN", [7/20, 1/4, 2/5]⟩
      (by
        show ResRow.mk (some "SLSN") [7/20, 1/4, 2/5]
          ∈ [ResRow.mk (some "SLSN") [7/20, 1/4, 2/5]]
        exact List.mem_singleton.mpr rfl),
   (C4_make_confusion_matrix_semantics resC4 clsC4 0).2.2.2.2.2⟩

/-- C4 counterexample: on a row whose probability vector has its argmax at
SNIa (0.40) but SNIa probability at most 1/2, the code predicts CCSN
(rounding the SNIa probability) while relabelling the multiclass argmax, as
the claim states it, would predict SNIa. -/
theorem C4_counterexample :
    binaryPredTypes resC4 clsC4 = ["CCSN"]
    ∧ (survivors resC4).map (fun r => spec_binary_predicted clsC4 r.probs) = ["SNIa"]
    ∧ binaryPredTypes resC4 clsC4
        ≠ (survivors resC4).map (fun r => spec_binary_predicted clsC4 r.probs) := by
  have h1 : binaryPredTypes resC4 clsC4 = ["CCSN"] := by
    have hidx : List.indexOf "SNIa" clsC4 = 2 := by decide
    norm_num [binaryPredTypes, sniaColumn, survivors, resC4, hidx, List.filter]
  have h2 : (survivors resC4).map (fun r => spec_binary_predicted clsC4 r.probs) = ["SNIa"] := by
    norm_num [spec_binary_predicted, survivors, resC4, clsC4, npArgmax, argmaxAux, List.filter]
  refine ⟨h1, h2, ?_⟩
  rw [h1, h2]
  decide

/-- C7 (amended): the matrix built by `make_confusion_matrix` is always a
square integer matrix over the sorted distinct labels that actually occur
among the surviving true or predicted labels, with entry (i, j) counting the
(true, predicted) pairs; it has one row and column per class of the ordered
class list only when the occurring labels are exactly the class list (in
binary mode: 2×2 only when both CCSN and SNIa occur). -/
theorem C7_confusion_matrix_square (results : List ResRow) (classes : Option (List String))
    (p_min : ℚ) (binary : Bool) :
    ((make_confusion_matrix results classes p_min binary).2.2).length
        = ((make_confusion_matrix results classes p_min binary).2.1).length
    ∧ (∀ row ∈ (make_confusion_matrix results classes p_min binary).2.2,
        row.length = ((make_confusion_matrix results classes p_min binary).2.1).length)
    ∧ (make_confusion_matrix results classes p_min binary).2.1
        = npUniqueStr ((cm_inputs results classes p_min binary).1
            ++ (cm_inputs results classes p_min binary).2)
    ∧ (∀ i j, i < ((make_confusion_matrix results classes p_min binary).2.1).length →
        j < ((make_confusion_matrix results classes p_min binary).2.1).length →
        (((make_confusion_matrix results classes p_min binary).2.2).getD i []).getD j 0
          = cmEntry (cm_inputs results classes p_min binary).1
              (cm_inputs results classes p_min binary).2
              (((make_confusion_matrix results classes p_min binary).2.1).getD i "")
              (((make_confusion_matrix results classes p_min binary).2.1).getD j ""))
    ∧ (((make_confusion_matrix results classes p_min binary).1).Nodup →
        (∀ c ∈ (make_confusion_matrix results classes p_min binary).1,
            c ∈ (cm_inputs results classes p_min binary).1
              ++ (cm_inputs results classes p_min binary).2) →
        (∀ l ∈ (cm_inputs results classes p_min binary).1
              ++ (cm_inputs results classes p_min binary).2,
            l ∈ (make_confusion_matrix results classes p_min binary).1) →
        ((make_confusion_matrix results classes p_min binary).2.1).length
          = ((make_confusion_matrix results classes p_min binary).1).length) := by
  refine ⟨(sklearn_cm_square _ _).1, (sklearn_cm_square _ _).2, rfl, ?_, ?_⟩
  · intro i j hi hj
    exact sklearn_cm_entry (cm_inputs results classes p_min binary).1
      (cm_inputs results classes p_min binary).2 i j hi hj
  · intro h1 h2 h3
    exact length_eq_of_nodup_mem (npUniqueStr_nodup _) h1
      (fun a => ⟨fun ha => h3 a (mem_npUniqueStr.mp ha),
                 fun ha => mem_npUniqueStr.mpr (h2 a ha)⟩)

/-- One labelled row for the C7 counterexample: a confidently-classified SNIa,
so only the label SNIa occurs among surviving true and predicted labels. -/
def resC7 : List ResRow := [⟨some "SNIa", [1/10, 9/10]⟩]

/-- C7 counterexample: in binary mode on a table whose only surviving label is
SNIa, the class list is [CCSN, SNIa] but the sklearn matrix is 1×1, not 2×2 —
a class with no surviving row gets no row or column. -/
theorem C7_counterexample :
    (make_confusion_matrix resC7 (some ["CCSN", "SNIa"]) 0 true).1 = ["CCSN", "SNIa"]
    ∧ ((make_confusion_matrix resC7 (some ["CCSN", "SNIa"]) 0 true).2.2).length = 1 := by
  constructor
  · rfl
  · have hidx : List.indexOf "SNIa" ["CCSN", "SNIa"] = 1 := by decide
    norm_num [make_confusion_matrix, cm_inputs, cmClasses, sklearn_confusion_matrix,
      binaryTrueTypes, binaryPredTypes, binaryInclude, sniaColumn, survivors, maskSelect,
      npUniqueStr, resC7, hidx, List.filter, List.insertionSort, List.orderedInsert]

/-- Two labelled rows for the C7 witness, one confidently SNIa and one
confidently CCSN, so both binary labels occur. -/
def resC7w : List ResRow :=
  [⟨some "SNIa", [1/10, 9/10]⟩, ⟨some "SNII", [9/10, 1/10]⟩]

theorem cm_inputs_resC7w :
    cm_inputs resC7w (some ["CCSN", "SNIa"]) 0 true
      = (["SNIa", "CCSN"], ["SNIa", "CCSN"]) := by
  have hidx : List.indexOf "SNIa" ["CCSN", "SNIa"] = 1 := by decide
  norm_num [cm_inputs, cmClasses, binaryTrueTypes, binaryPredTypes, binaryInclude,
    sniaColumn, survivors, maskSelect, resC7w, hidx, List.filter]
  all_goals decide

/-- Witness for the amended C7: when both binary labels occur among the
surviving rows the matrix is full-size over the class list. -/
theorem C7_confusion_matrix_square_witness :
    ((make_confusion_matrix resC7w (some ["CCSN", "SNIa"]) 0 true).2.1).length
      = ((make_confusion_matrix resC7w (some ["CCSN", "SNIa"]) 0 true).1).length := by
  refine (C7_confusion_matrix_square resC7w (some ["CCSN", "SNIa"]) 0 true).2.2.2.2
    (by decide) ?_ ?_
  · intro c hc
    rw [cm_inputs_resC7w]
    have hcls : (make_confusion_matrix resC7w (some ["CCSN", "SNIa"]) 0 true).1
        = ["CCSN", "SNIa"] := rfl
    rw [hcls] at hc
    simp only [List.mem_cons, List.mem_singleton] at hc
    rcases hc with h | h | h
    · subst h; simp
    · subst h; simp
    · exact absurd h (by simp at h)
  · intro l hl
    rw [cm_inputs_resC7w] at hl
    have hcls : (make_confusion_matrix resC7w (some ["CCSN", "SNIa"]) 0 true).1
        = ["CCSN", "SNIa"] := rfl
    rw [hcls]
    simp only [List.cons_append, List.nil_append, List.mem_cons] at hl
    rcases hl with h | h | h | h | h
    · subst h; simp
    · subst h; simp
    · subst h; simp
    · subst h; simp
    · exact absurd h (by simp at h)






/-! ### plot_confusion_matrix normalization (classify.py lines 50-55) -/

/-- A numpy floating value as produced by dividing nonnegative integer counts:
a finite value, nan (0/0) or +inf (x/0 with x > 0).  numpy emits a
RuntimeWarning for the latter two and continues — no exception is raised. -/
inductive NpVal where
  | val (q : ℚ)
  | nan
  | inf
deriving DecidableEq

/-- numpy true division of nonnegative integer counts. -/
def npDiv (a b : Nat) : NpVal :=
  if b = 0 then (if a = 0 then .nan else .inf) else .val ((a : ℚ) / (b : ℚ))

/-- Line 50: `confusion_matrix.sum(axis=1)`. -/
def n_per_true_class (cm : List (List Nat)) : List Nat :=
  cm.map (fun row => row.sum)

/-- Line 51: `confusion_matrix.sum(axis=0)`. -/
def n_per_pred_class (cm : List (List Nat)) : List Nat :=
  (List.range (cm.headD []).length).map (fun j => (cm.map (fun row => row.getD j 0)).sum)

/-- Line 55: `confusion_matrix / n_per_true_class[:, np.newaxis]` — each row
divided elementwise by its own sum (completeness normalization). -/
def normalize_rows (cm : List (List Nat)) : List (List NpVal) :=
  cm.map (fun row => row.map (fun a => npDiv a row.sum))

/-- Line 53: `confusion_matrix / n_per_pred_class[np.newaxis, :]` — each
column divided elementwise by its own sum (purity normalization). -/
def normalize_cols (cm : List (List Nat)) : List (List NpVal) :=
  cm.map (fun row => row.enum.map (fun p => npDiv p.2 ((n_per_pred_class cm).getD p.1 0)))

theorem getD_map_range (f : Nat → Nat) (n j : Nat) (hj : j < n) :
    ((List.range n).map f).getD j 0 = f j := by
  have hj2 : j < ((List.range n).map f).length := by
    rw [List.length_map, List.length_range]
    exact hj
  rw [List.getD_eq_getElem _ _ hj2, List.getElem_map, List.getElem_range]

theorem n_per_pred_class_getD {cm : List (List Nat)} {w : Nat}
    (hrect : ∀ row ∈ cm, row.length = w) {row : List Nat} (hrow : row ∈ cm)
    {j : Nat} (hj : j < w) :
    (n_per_pred_class cm).getD j 0 = (cm.map (fun r => r.getD j 0)).sum := by
  unfold n_per_pred_class
  have hhead : (cm.headD []).length = w := by
    cases cm with
    | nil => exact absurd hrow (List.not_mem_nil _)
    | cons r rs =>
        exact hrect r (List.mem_cons_self _ _)
  rw [hhead]
  exact getD_map_range _ w j hj

theorem cell_le_colsum {cm : List (List Nat)} {row : List Nat} (hrow : row ∈ cm) (j : Nat) :
    row.getD j 0 ≤ (cm.map (fun r => r.getD j 0)).sum := by
  apply List.single_le_sum (fun x _ => Nat.zero_le x)
  exact List.mem_map_of_mem _ hrow

/-- C8: normalization of an integer confusion matrix by true-class row totals
(completeness) or predicted-class column totals (purity) is a total function
that never raises: every cell of a zero-total row (resp. column) becomes
not-a-number and is surfaced in the output, every other cell is the finite
ratio, and no cell is infinite (a nonzero cell forces a nonzero total). -/
theorem C8_normalization_never_crashes (cm : List (List Nat)) (w : Nat)
    (hrect : ∀ row ∈ cm, row.length = w) :
    (normalize_rows cm).length = cm.length
    ∧ (∀ row ∈ cm, ∀ a ∈ row,
        npDiv a row.sum ≠ .inf
        ∧ (row.sum = 0 → npDiv a row.sum = .nan)
        ∧ (row.sum ≠ 0 → npDiv a row.sum = .val ((a : ℚ) / (row.sum : ℚ))))
    ∧ (normalize_cols cm).length = cm.length
    ∧ (∀ row ∈ cm, ∀ j, j < w →
        npDiv (row.getD j 0) ((n_per_pred_class cm).getD j 0) ≠ .inf
        ∧ ((n_per_pred_class cm).getD j 0 = 0 →
            npDiv (row.getD j 0) ((n_per_pred_class cm).getD j 0) = .nan)
        ∧ ((n_per_pred_class cm).getD j 0 ≠ 0 →
            npDiv (row.getD j 0) ((n_per_pred_class cm).getD j 0)
              = .val ((row.getD j 0 : ℚ) / (((n_per_pred_class cm).getD j 0 : Nat) : ℚ)))) := by
  refine ⟨List.length_map _ _, ?_, List.length_map _ _, ?_⟩
  · intro row hrow a ha
    by_cases hs : row.sum = 0
    · have ha0 : a = 0 := by
        have := List.sum_eq_zero_iff.mp hs
        exact this a ha
      refine ⟨?_, fun _ => ?_, fun hns => absurd hs hns⟩
      · rw [ha0]
        unfold npDiv
        rw [hs]
        simp
      · rw [ha0]
        unfold npDiv
        rw [hs]
        simp
    · refine ⟨?_, fun h0 => absurd h0 hs, fun _ => ?_⟩
      · unfold npDiv
        rw [if_neg hs]
        simp
      · unfold npDiv
        rw [if_neg hs]
  · intro row hrow j hj
    rw [n_per_pred_class_getD hrect hrow hj]
    by_cases hs : (cm.map (fun r => r.getD j 0)).sum = 0
    · have ha0 : row.getD j 0 = 0 := by
        have := cell_le_colsum hrow j
        omega
      refine ⟨?_, fun _ => ?_, fun hns => absurd hs hns⟩
      · rw [ha0, hs]
        unfold npDiv
        simp
      · rw [ha0, hs]
        unfold npDiv
        simp
    · refine ⟨?_, fun h0 => absurd h0 hs, fun _ => ?_⟩
      · unfold npDiv
        rw [if_neg hs]
        simp
      · unfold npDiv
        rw [if_neg hs]

theorem C8_normalization_never_crashes_witness :
    npDiv (([0, 0] : List Nat).getD 1 0) ((n_per_pred_class [[1, 0], [0, 0]]).getD 1 0) = .nan
    ∧ npDiv 1 ([1, 0] : List Nat).sum = .val ((1 : ℚ) / (1 : ℚ)) := by
  constructor
  · exact ((C8_normalization_never_crashes [[1, 0], [0, 0]] 2 (by decide)).2.2.2
      [0, 0] (by decide) 1 (by decide)).2.1 (by decide)
  · exact ((C8_normalization_never_crashes [[1, 0], [0, 0]] 2 (by decide)).2.1
      [1, 0] (by decide) 1 (by decide)).2.2 (by decide)




/-! ### classify and validate_classifier (classify.py lines 142-240)

Astropy tables are mutable objects passed by reference; the embedding uses an
explicit store mapping references to table values, so that writing a column
through one reference is visible to every holder of that reference.  The
classification pipeline is abstract: `pipeFit` is `Pipeline.fit` (returning
the fitted pipeline state) and `predict_proba` is `Pipeline.predict_proba`.
-/

/-- A table as the classification code sees it: one metadata tuple per row
(`[filename, type, ...]`, see `Meta`), the per-row feature vectors
(`'features'` reshaped to two dimensions), and the `'probabilities'` column,
present or absent. -/
structure DataTable where
  meta : List Meta
  features : List Vec
  probabilities : Option (List Vec)

/-- The store of table objects, indexed by reference. -/
def Store := Nat → DataTable

def getTbl (s : Store) (r : Nat) : DataTable := s r

def setTbl (s : Store) (r : Nat) (t : DataTable) : Store :=
  fun r2 => if r2 = r then t else s r2

theorem getTbl_setTbl_same (s : Store) (r : Nat) (t : DataTable) :
    getTbl (setTbl s r t) r = t := by
  unfold getTbl setTbl
  simp

theorem getTbl_setTbl_other (s : Store) (r r2 : Nat) (t : DataTable) (h : r2 ≠ r) :
    getTbl (setTbl s r t) r2 = getTbl s r2 := by
  unfold getTbl setTbl
  simp [h]

/-- The `'filename'` column entry of a row (first metadata slot). -/
def rowFilename (m : Meta) : String := m.headD ""

/-- The `'type'` column entry of a row (second metadata slot). -/
def rowType (m : Meta) : String := m.getD 1 ""

section Pipeline

variable {Pipe : Type} (pipeFit : Pipe → List Vec → List String → Pipe)
variable (predict_proba : Pipe → List Vec → List Vec)

/-- `train_classifier(pipeline, train_data)`: fit the pipeline on the feature
matrix and the `'type'` column. -/
def train_classifier (pipeline : Pipe) (train_data : DataTable) : Pipe :=
  pipeFit pipeline train_data.features (train_data.meta.map rowType)

/-- `aggregate_probabilities` applied to a table object: a fresh table with
the metadata and averaged probability columns (the `'features'` column is not
kept). -/
def aggTable (t : DataTable) : DataTable :=
  { meta := (aggregate_probabilities (t.meta.zip (t.probabilities.getD []))).map Prod.fst
    features := []
    probabilities :=
      some ((aggregate_probabilities (t.meta.zip (t.probabilities.getD []))).map Prod.snd) }

/-- `classify(pipeline, test_data, aggregate)` (lines 156-177): writes the
`'probabilities'` column into the table object passed by reference, then
either returns a fresh aggregated table or returns the same reference. -/
def classify (pipeline : Pipe) (s : Store) (test_data : Nat) (aggregate : Bool) :
    Store × (Nat ⊕ DataTable) :=
  let t := getTbl s test_data
  let t2 := { t with probabilities := some (predict_proba pipeline t.features) }
  let s2 := setTbl s test_data t2
  if aggregate then (s2, Sum.inr (aggTable t2))
  else (s2, Sum.inl test_data)

/-- The cross-validation loop of `validate_classifier` (lines 232-237).  Each
iteration computes the boolean train and test masks (lines 233-234) and then
executes line 235, `train_classifier(train_data[train_index])` — a call that
passes one positional argument to a function requiring two, which raises
`TypeError: train_classifier() missing 1 required positional argument`
before anything else happens. -/
def cv_loop (s : Store) (train_data test_data : Nat) :
    List String → Except PyErr Unit
  | [] => .ok ()
  | filename :: _ =>
      let train_index := (getTbl s train_data).meta.map
        (fun m => decide (rowFilename m ≠ filename))
      let test_index := (getTbl s test_data).meta.map
        (fun m => decide (rowFilename m = filename))
      .error (.typeError "train_classifier() missing 1 required positional argument: train_data")

/-- Lines 228-231 of `validate_classifier`: default the test set to the
training set, fit the pipeline on the full training set, and write the
baseline `'probabilities'` column into the test table object.  This is the
state of the store when the cross-validation loop starts. -/
def vcStore (pipeline : Pipe) (s : Store) (train_data : Nat) (test_data : Option Nat) :
    Store :=
  setTbl s (test_data.getD train_data)
    { getTbl s (test_data.getD train_data) with
      probabilities := some (predict_proba
        (train_classifier pipeFit pipeline (getTbl s train_data))
        (getTbl s (test_data.getD train_data)).features) }

/-- `validate_classifier(pipeline, train_data, test_data, aggregate)` (lines
207-240): after the baseline write (`vcStore`), run the per-filename
cross-validation loop over `train_data['filename']`; its error, if any,
propagates, and otherwise the aggregated table or the test-table reference
is returned. -/
def validate_classifier (pipeline : Pipe) (s : Store) (train_data : Nat)
    (test_data : Option Nat) (aggregate : Bool) :
    Store × Except PyErr (Nat ⊕ DataTable) :=
  match cv_loop (vcStore pipeFit predict_proba pipeline s train_data test_data)
      train_data (test_data.getD train_data)
      ((getTbl (vcStore pipeFit predict_proba pipeline s train_data test_data)
          train_data).meta.map rowFilename) with
  | .error e => (vcStore pipeFit predict_proba pipeline s train_data test_data, .error e)
  | .ok _ =>
      if aggregate then
        (vcStore pipeFit predict_proba pipeline s train_data test_data,
         .ok (.inr (aggTable (getTbl (vcStore pipeFit predict_proba pipeline s train_data
            test_data) (test_data.getD train_data)))))
      else
        (vcStore pipeFit predict_proba pipeline s train_data test_data,
         .ok (.inl (test_data.getD train_data)))

theorem vcStore_meta_train (pipeline : Pipe) (s : Store) (train_data : Nat)
    (test_data : Option Nat) :
    (getTbl (vcStore pipeFit predict_proba pipeline s train_data test_data) train_data).meta
      = (getTbl s train_data).meta := by
  unfold vcStore
  by_cases h : train_data = test_data.getD train_data
  · rw [← h, getTbl_setTbl_same]
  · rw [getTbl_setTbl_other _ _ _ _ h]

theorem validate_classifier_fst (pipeline : Pipe) (s : Store) (train_data : Nat)
    (test_data : Option Nat) (aggregate : Bool) :
    (validate_classifier pipeFit predict_proba pipeline s train_data test_data aggregate).1
      = vcStore pipeFit predict_proba pipeline s train_data test_data := by
  unfold validate_classifier
  cases h : cv_loop (vcStore pipeFit predict_proba pipeline s train_data test_data)
      train_data (test_data.getD train_data)
      ((getTbl (vcStore pipeFit predict_proba pipeline s train_data test_data)
          train_data).meta.map rowFilename) with
  | error e => rfl
  | ok u =>
      by_cases ha : aggregate
      · rw [ha]
        rfl
      · simp only [Bool.not_eq_true] at ha
        rw [ha]
        rfl

/-- C1 (code bug): for every labeled training table with at least one row,
`validate_classifier` does not perform the leave-one-group-out
cross-validation its docstring and the specification describe: the first
iteration of its loop calls `train_classifier(train_data[train_index])` with
a single positional argument (the pipeline argument is missing), so the call
raises a `TypeError` and validation aborts. -/
theorem C1_validate_classifier_type_error (pipeline : Pipe) (s : Store) (train_data : Nat)
    (test_data : Option Nat) (aggregate : Bool)
    (hne : (getTbl s train_data).meta ≠ []) :
    (validate_classifier pipeFit predict_proba pipeline s train_data test_data aggregate).2
      = .error (.typeError
          "train_classifier() missing 1 required positional argument: train_data") := by
  unfold validate_classifier
  rw [vcStore_meta_train]
  cases hm : (getTbl s train_data).meta with
  | nil => exact absurd hm hne
  | cons m rest =>
      simp only [List.map_cons]
      rfl

theorem classify_fst (pipeline : Pipe) (s : Store) (test_data : Nat) (aggregate : Bool) :
    (classify predict_proba pipeline s test_data aggregate).1
      = setTbl s test_data
          { getTbl s test_data with
            probabilities := some (predict_proba pipeline (getTbl s test_data).features) } := by
  unfold classify
  by_cases ha : aggregate
  · rw [ha]
    rfl
  · simp only [Bool.not_eq_true] at ha
    rw [ha]
    rfl

/-- C9: `classify` and `validate_classifier` mutate the caller's test table
in place — the table object passed by reference holds a freshly written
`'probabilities'` column after the call (overwriting any existing one, all
other columns unchanged, every other table untouched) — and with
`aggregate=False` `classify` returns that same object. -/
theorem C9_tables_mutated_in_place (pipeline : Pipe) (s : Store) (test_data : Nat)
    (train_data rtest : Nat) (aggregate aggregate2 : Bool) :
    (classify predict_proba pipeline s test_data false).2 = Sum.inl test_data
    ∧ getTbl (classify predict_proba pipeline s test_data aggregate).1 test_data
        = { getTbl s test_data with
            probabilities := some (predict_proba pipeline (getTbl s test_data).features) }
    ∧ (∀ r2, r2 ≠ test_data →
        getTbl (classify predict_proba pipeline s test_data aggregate).1 r2 = getTbl s r2)
    ∧ getTbl (validate_classifier pipeFit predict_proba pipeline s train_data (some rtest)
          aggregate2).1 rtest
        = { getTbl s rtest with
            probabilities := some (predict_proba
              (train_classifier pipeFit pipeline (getTbl s train_data))
              (getTbl s rtest).features) }
    ∧ (∀ r2, r2 ≠ rtest →
        getTbl (validate_classifier pipeFit predict_proba pipeline s train_data (some rtest)
          aggregate2).1 r2 = getTbl s r2) := by
  refine ⟨rfl, ?_, ?_, ?_, ?_⟩
  · rw [classify_fst, getTbl_setTbl_same]
  · intro r2 h2
    rw [classify_fst, getTbl_setTbl_other _ _ _ _ h2]
  · rw [validate_classifier_fst]
    unfold vcStore
    show getTbl (setTbl s rtest _) rtest = _
    rw [getTbl_setTbl_same]
    rfl
  · intro r2 h2
    rw [validate_classifier_fst]
    unfold vcStore
    show getTbl (setTbl s rtest _) r2 = _
    rw [getTbl_setTbl_other _ _ _ _ h2]

end Pipeline

namespace WitnessInstances

/-- Concrete pipeline for the C1 and C9 witnesses: the pipeline state is a
unit, prediction echoes the feature rows. -/
def pfW : Unit → List Vec → List String → Unit := fun p _ _ => p

def ppW : Unit → List Vec → List Vec := fun _ X => X

def tblW : DataTable :=
  { meta := [["sn1", "SNIa"]], features := [[1]], probabilities := none }

def storeW : Store := fun _ => tblW

/-- Witness for C1 at a concrete one-row training table. -/
theorem C1_validate_classifier_type_error_theorem_witness :
    (validate_classifier pfW ppW () storeW 0 none true).2
      = .error (.typeError
          "train_classifier() missing 1 required positional argument: train_data") :=
  C1_validate_classifier_type_error pfW ppW () storeW 0 none true (by decide)

/-- Witness for C9 at a concrete store and pipeline. -/
theorem C9_tables_mutated_in_place_witness :
    (classify ppW () storeW 0 false).2 = Sum.inl 0
    ∧ getTbl (classify ppW () storeW 0 false).1 0
        = { getTbl storeW 0 with
            probabilities := some (ppW () (getTbl storeW 0).features) }
    ∧ getTbl (classify ppW () storeW 0 false).1 1 = getTbl storeW 1
    ∧ getTbl (validate_classifier pfW ppW () storeW 0 (some 0) true).1 0
        = { getTbl storeW 0 with
            probabilities := some (ppW (train_classifier pfW () (getTbl storeW 0))
              (getTbl storeW 0).features) }
    ∧ getTbl (validate_classifier pfW ppW () storeW 0 (some 0) true).1 1 = getTbl storeW 1 :=
  ⟨(C9_tables_mutated_in_place pfW ppW () storeW 0 0 0 false true).1,
   (C9_tables_mutated_in_place pfW ppW () storeW 0 0 0 false true).2.1,
   (C9_tables_mutated_in_place pfW ppW () storeW 0 0 0 false true).2.2.1 1 (by decide),
   (C9_tables_mutated_in_place pfW ppW () storeW 0 0 0 true true).2.2.2.1,
   (C9_tables_mutated_in_place pfW ppW () storeW 0 0 0 true true).2.2.2.2 1 (by decide)⟩

end WitnessInstances

end Superphot
